import Mathlib

/-!
Verification of the gb-rs memory-bus dispatcher (`src/io/mod.rs`) and the
RAM wave audio channel (`src/spu/ram_wave.rs`).

The Rust code is shallowly embedded: machine integers (`u8`, `u16`, `u32`)
become `Nat` (the invariant theorems below show that the arithmetic in the
embedded code never reaches a point where `Nat` and the fixed-width types
would disagree on reachable states), fatal conditions (`panic!`) become
`Option`-valued results where `none` marks the panic, and interior-mutable
stores become explicit state passing.
-/

namespace GbRs

/-- Modelled from the spec: `spu/mod.rs` (not in the sources at hand) defines
`Sample`, the small-integer amplitude type carried by the wave channel. -/
abbrev Sample := Nat

/-- Modelled from the spec: `spu/mod.rs` (not in the sources at hand) defines
the play mode, `Continuous` or `Counter`. -/
inductive Mode where
  | Continuous
  | Counter
deriving DecidableEq, Repr

/-- The output-level attenuation applied to raw wave samples
(`OutputLevel` in `src/spu/ram_wave.rs`). -/
inductive OutputLevel where
  | Mute
  | Full
  | Halved
  | Quartered
deriving DecidableEq, Repr

/-- `OutputLevel::from_field`: decode a 2-bit register field; any other
value is `unreachable!()` in the source, embedded as `none`. -/
def OutputLevel.from_field : Nat → Option OutputLevel
  | 0 => some OutputLevel.Mute
  | 1 => some OutputLevel.Full
  | 2 => some OutputLevel.Halved
  | 3 => some OutputLevel.Quartered
  | _ => none

/-- `OutputLevel::process`: attenuate a sample (truncating integer division
on the `Sample` type). -/
def OutputLevel.process : OutputLevel → Sample → Sample
  | OutputLevel.Mute, _ => 0
  | OutputLevel.Full, sample => sample
  | OutputLevel.Halved, sample => sample / 2
  | OutputLevel.Quartered, sample => sample / 4

/-- The wave channel state (`RamWave` in `src/spu/ram_wave.rs`).
The Rust `samples` field is a fixed array `[Sample; 32]`, embedded as a
list whose length is 32 in every state that embeds a Rust value; the
field widths are `remaining : u32`, `divider : u16`, `counter : u16`,
`index : u8`. -/
structure RamWave where
  running : Bool
  enabled : Bool
  remaining : Nat
  output_level : OutputLevel
  divider : Nat
  counter : Nat
  mode : Mode
  samples : List Sample
  index : Nat
deriving DecidableEq, Repr

/-- `RamWave::new`: power-on state (`OutputLevel::from_field(0)` is `Mute`). -/
def RamWave.new : RamWave :=
  { running := false
    enabled := false
    remaining := 0
    output_level := OutputLevel.Mute
    divider := 0
    counter := 0
    mode := Mode.Continuous
    samples := List.replicate 32 0
    index := 0 }

/-- `RamWave::step`: advance the channel state machine by one audio tick.
The early `return` paths of the Rust code become the first two branches;
`self.samples.len()` is the length of the samples list (32 for every
state embedding a Rust value). -/
def RamWave.step (s : RamWave) : RamWave :=
  if !s.running then
    s
  else if s.mode = Mode.Counter ∧ s.remaining = 0 then
    { s with running := false }
  else
    let s1 := if s.mode = Mode.Counter then { s with remaining := s.remaining - 1 } else s
    let s2 :=
      if s1.counter = 0 then
        { s1 with
          counter := 2 * (0x800 - s1.divider)
          index := (s1.index + 1) % s1.samples.length }
      else s1
    { s2 with counter := s2.counter - 1 }

/-- `RamWave::ram_sample`: read the sample table at `index`
(the Rust array access panics out of bounds; callers stay in `0..31`). -/
def RamWave.ram_sample (s : RamWave) (index : Nat) : Sample :=
  s.samples.getD index 0

/-- `RamWave::sample`: the channel's current output amplitude. -/
def RamWave.sample (s : RamWave) : Sample :=
  if !s.running || !s.enabled then 0
  else s.output_level.process (s.ram_sample s.index)

/-- `RamWave::set_ram_sample`: write the sample table at `index`. -/
def RamWave.set_ram_sample (s : RamWave) (index : Nat) (x : Sample) : RamWave :=
  { s with samples := s.samples.set index x }

/-- `RamWave::start`: begin a tick cycle (the source deliberately leaves
`enabled` untouched). -/
def RamWave.start (s : RamWave) : RamWave :=
  { s with running := true }

/-- `RamWave::divider`: getter for the frequency divider. -/
def RamWave.divider_get (s : RamWave) : Nat :=
  s.divider

/-- `RamWave::set_divider`: `panic!` (embedded as `none`) when
`divider >= 0x800`, otherwise store the new divider. -/
def RamWave.set_divider (s : RamWave) (divider : Nat) : Option RamWave :=
  if divider ≥ 0x800 then none
  else some { s with divider := divider }

/-- `RamWave::set_mode`. -/
def RamWave.set_mode (s : RamWave) (mode : Mode) : RamWave :=
  { s with mode := mode }

/-- `RamWave::set_length`: `len` is a `u8` widened to `u32`. -/
def RamWave.set_length (s : RamWave) (len : Nat) : RamWave :=
  { s with remaining := (0x100 - len) * 0x4000 }

/-- `RamWave::set_enabled`. -/
def RamWave.set_enabled (s : RamWave) (enabled : Bool) : RamWave :=
  { s with enabled := enabled }

/-- `RamWave::set_output_level`. -/
def RamWave.set_output_level (s : RamWave) (level : OutputLevel) : RamWave :=
  { s with output_level := level }

/-- States of the wave channel reachable from `RamWave::new` through the
public mutators and `step`.  `set_divider` contributes only when it
succeeds (a panicking call produces no new state); `set_length` takes a
`u8`, so `len < 0x100`; the sample-table index is a valid `0..31` index
(the spec makes the caller responsible for that). -/
inductive Reachable : RamWave → Prop where
  | new : Reachable RamWave.new
  | step {s : RamWave} : Reachable s → Reachable s.step
  | start {s : RamWave} : Reachable s → Reachable s.start
  | set_divider {s t : RamWave} {v : Nat} :
      Reachable s → s.set_divider v = some t → Reachable t
  | set_mode {s : RamWave} {m : Mode} : Reachable s → Reachable (s.set_mode m)
  | set_length {s : RamWave} {len : Nat} :
      Reachable s → len < 0x100 → Reachable (s.set_length len)
  | set_enabled {s : RamWave} {b : Bool} : Reachable s → Reachable (s.set_enabled b)
  | set_output_level {s : RamWave} {l : OutputLevel} :
      Reachable s → Reachable (s.set_output_level l)
  | set_ram_sample {s : RamWave} {i : Nat} {x : Sample} :
      Reachable s → i < 32 → Reachable (s.set_ram_sample i x)

/-- Modelled from the spec: the video subsystem (`gpu`, not in the sources
at hand) is consulted by the dispatcher only through `get_current_line`;
it is embedded as its current-line value. -/
structure Gpu where
  line : Nat

/-- Modelled from the spec: `Gpu::get_line` returns the current scanline. -/
def Gpu.get_line (g : Gpu) : Nat :=
  g.line

/-- The bus dispatcher state (`Interconnect` in `src/io/mod.rs`).
Modelled from the spec where the stores' own code (`rom.rs`, `ram.rs`) is
not in the sources at hand: the read-only image store and the read/write
store are byte-addressable stores, embedded as functions from offsets to
bytes; `io` is the 256-cell register bank. -/
structure Interconnect where
  rom : Nat → Nat
  ram : Nat → Nat
  gpu : Gpu
  io : Nat → Nat

/-- The four bus targets of `Interconnect::get_peripheral`: the image
store, the read/write store, the unmapped sentinel, and the dispatcher
itself acting as the I/O peripheral. -/
inductive Periph where
  | rom
  | ram
  | unmapped
  | itself
deriving DecidableEq, Repr

/-- `Interconnect::get_peripheral`: decode a 16-bit address into a
peripheral and an offset within its address space. -/
def Interconnect.get_peripheral (addr : Nat) : Periph × Nat :=
  if addr < 0x8000 then (Periph.rom, addr - 0x0000)
  else if addr < 0xe000 then (Periph.ram, addr - 0x8000)
  else if addr < 0xff00 then (Periph.unmapped, addr)
  else (Periph.itself, addr - 0xff00)

/-- The I/O-range read (`impl Addressable for Interconnect`, `get_byte`):
offset 0x44 is the LY register, served live from the video subsystem;
every other offset reads the stored register-bank cell (after a
diagnostic print, which has no effect on the state). -/
def Interconnect.io_get_byte (ic : Interconnect) (offset : Nat) : Nat :=
  if offset = 0x44 then ic.gpu.get_line
  else ic.io offset

/-- The I/O-range write (`impl Addressable for Interconnect`, `set_byte`):
offset 0x44 is `panic!` (embedded as `none`); every other offset stores
the value in the register-bank cell. -/
def Interconnect.io_set_byte (ic : Interconnect) (offset val : Nat) : Option Interconnect :=
  if offset = 0x44 then none
  else some { ic with io := fun i => if i = offset then val else ic.io i }

/-- `Interconnect::get_byte`: route a read through `get_peripheral`.
The unmapped sentinel's `get_byte` is `panic!` (`none`); the image store
and read/write store reads are modelled from the spec as plain loads. -/
def Interconnect.get_byte (ic : Interconnect) (addr : Nat) : Option Nat :=
  match Interconnect.get_peripheral addr with
  | (Periph.rom, offset) => some (ic.rom offset)
  | (Periph.ram, offset) => some (ic.ram offset)
  | (Periph.unmapped, _) => none
  | (Periph.itself, offset) => some (ic.io_get_byte offset)

/-- `Interconnect::set_byte`: route a write through `get_peripheral`.
The image store uses the default `Addressable::set_byte`, which reports
the attempt and discards the value (state unchanged, recoverable); the
read/write store write is modelled from the spec as a plain store; the
unmapped sentinel's `set_byte` is `panic!` (`none`). -/
def Interconnect.set_byte (ic : Interconnect) (addr val : Nat) : Option Interconnect :=
  match Interconnect.get_peripheral addr with
  | (Periph.rom, _) => some ic
  | (Periph.ram, offset) =>
      some { ic with ram := fun i => if i = offset then val else ic.ram i }
  | (Periph.unmapped, _) => none
  | (Periph.itself, offset) => ic.io_set_byte offset val

/-- A concrete dispatcher state used by the closed-instance theorems. -/
def icDemo : Interconnect :=
  { rom := fun _ => 0x3a
    ram := fun _ => 0
    gpu := { line := 0x90 }
    io := fun _ => 0 }

/-- A concrete channel state: running and enabled at level Quartered with
every table entry 12. -/
def wDemo : RamWave :=
  { RamWave.new with
    running := true
    enabled := true
    output_level := OutputLevel.Quartered
    samples := List.replicate 32 12 }

/-- A concrete channel state: running in Continuous mode with an expired
period counter and the sample index at the top of the table. -/
def w2Demo : RamWave :=
  { RamWave.new with
    running := true
    counter := 0
    index := 31
    divider := 0x300 }

/-- A concrete channel state: running in Counter mode with a tick budget
of two. -/
def s3Demo : RamWave :=
  { RamWave.new with
    running := true
    mode := Mode.Counter
    remaining := 2
    counter := 5 }

/-- C1: for every 16-bit address the dispatcher's decode follows the
four-range order with first match winning: below 0x8000 the image store at
the same address, below 0xE000 the read/write store at `address - 0x8000`,
below 0xFF00 the unmapped sentinel, otherwise the dispatcher itself at
offset `address - 0xFF00`. -/
theorem C1_get_peripheral_decode (addr : Nat) (h16 : addr < 0x10000) :
    (addr < 0x8000 → Interconnect.get_peripheral addr = (Periph.rom, addr)) ∧
    (0x8000 ≤ addr → addr < 0xe000 →
      Interconnect.get_peripheral addr = (Periph.ram, addr - 0x8000)) ∧
    (0xe000 ≤ addr → addr < 0xff00 →
      (Interconnect.get_peripheral addr).1 = Periph.unmapped) ∧
    (0xff00 ≤ addr → Interconnect.get_peripheral addr = (Periph.itself, addr - 0xff00)) := by
  unfold Interconnect.get_peripheral
  refine ⟨fun h => ?_, fun h1 h2 => ?_, fun h1 h2 => ?_, fun h1 => ?_⟩ <;>
    split_ifs <;> first | rfl | omega | (exfalso; omega)

/-- Closed instance of C1: one address in each of the four ranges. -/
theorem C1_witness :
    Interconnect.get_peripheral 0x1234 = (Periph.rom, 0x1234) ∧
    Interconnect.get_peripheral 0x9234 = (Periph.ram, 0x1234) ∧
    (Interconnect.get_peripheral 0xe500).1 = Periph.unmapped ∧
    Interconnect.get_peripheral 0xff44 = (Periph.itself, 0x44) :=
  ⟨(C1_get_peripheral_decode 0x1234 (by decide)).1 (by decide),
   (C1_get_peripheral_decode 0x9234 (by decide)).2.1 (by decide) (by decide),
   (C1_get_peripheral_decode 0xe500 (by decide)).2.2.1 (by decide) (by decide),
   (C1_get_peripheral_decode 0xff44 (by decide)).2.2.2 (by decide)⟩

/-- C5: for every address in [0x8000, 0xDFFF], writing a byte and then
reading the same address through the dispatcher returns the written byte. -/
theorem C5_ram_round_trip (ic : Interconnect) (addr v : Nat)
    (h1 : 0x8000 ≤ addr) (h2 : addr ≤ 0xdfff) :
    (ic.set_byte addr v).bind (fun ic2 => ic2.get_byte addr) = some v := by
  have hp : Interconnect.get_peripheral addr = (Periph.ram, addr - 0x8000) := by
    unfold Interconnect.get_peripheral
    split_ifs <;> first | rfl | omega | (exfalso; omega)
  simp [Interconnect.set_byte, Interconnect.get_byte, hp]

/-- Closed instance of C5: a write/read round trip at 0xC123. -/
theorem C5_witness :
    (icDemo.set_byte 0xc123 0x77).bind (fun ic2 => ic2.get_byte 0xc123) = some 0x77 :=
  C5_ram_round_trip icDemo 0xc123 0x77 (by decide) (by decide)

/-- C6: every read and every write of an address in [0xE000, 0xFEFF]
routes to the unmapped sentinel and is fatal. -/
theorem C6_unmapped_fatal (ic : Interconnect) (addr v : Nat)
    (h1 : 0xe000 ≤ addr) (h2 : addr ≤ 0xfeff) :
    ic.get_byte addr = none ∧ ic.set_byte addr v = none := by
  have hp : Interconnect.get_peripheral addr = (Periph.unmapped, addr) := by
    unfold Interconnect.get_peripheral
    split_ifs <;> first | rfl | omega | (exfalso; omega)
  constructor <;> simp [Interconnect.get_byte, Interconnect.set_byte, hp]

/-- Closed instance of C6: a fatal read at 0xE000 and a fatal write at
0xFEFF. -/
theorem C6_witness :
    icDemo.get_byte 0xe000 = none ∧ icDemo.set_byte 0xfeff 0xab = none :=
  ⟨(C6_unmapped_fatal icDemo 0xe000 0xab (by decide) (by decide)).1,
   (C6_unmapped_fatal icDemo 0xfeff 0xab (by decide) (by decide)).2⟩

/-- C7: in every dispatcher state, reading 0xFF44 returns the video
subsystem's current line (never the stored register-bank cell, whatever
that cell holds), and writing 0xFF44 is fatal for every value. -/
theorem C7_ly_register (ic : Interconnect) (v : Nat) :
    ic.get_byte 0xff44 = some ic.gpu.get_line ∧ ic.set_byte 0xff44 v = none := by
  constructor <;>
    simp [Interconnect.get_byte, Interconnect.set_byte, Interconnect.get_peripheral,
      Interconnect.io_get_byte, Interconnect.io_set_byte]

/-- C8: for every address below 0x8000, a write is recoverable and leaves
the state untouched, and a read returns the image store's byte at that
address. -/
theorem C8_rom_write_rejected (ic : Interconnect) (addr v : Nat) (h : addr < 0x8000) :
    ic.set_byte addr v = some ic ∧ ic.get_byte addr = some (ic.rom addr) := by
  have hp : Interconnect.get_peripheral addr = (Periph.rom, addr) := by
    unfold Interconnect.get_peripheral
    split_ifs <;> first | rfl | omega | (exfalso; omega)
  constructor <;> simp [Interconnect.set_byte, Interconnect.get_byte, hp]

/-- Closed instance of C8: the write at 0x1000 is discarded and the read
still sees the image store's byte. -/
theorem C8_witness :
    icDemo.set_byte 0x1000 0x55 = some icDemo ∧ icDemo.get_byte 0x1000 = some 0x3a :=
  C8_rom_write_rejected icDemo 0x1000 0x55 (by decide)

/-- C9: `set_divider v` is fatal exactly when `v ≥ 0x800`, and otherwise
stores `v` in the divider field leaving every other field unchanged. -/
theorem C9_set_divider_spec (s : RamWave) (v : Nat) :
    (s.set_divider v = none ↔ 0x800 ≤ v) ∧
    (v < 0x800 → s.set_divider v = some { s with divider := v }) := by
  unfold RamWave.set_divider
  constructor
  · split_ifs with h <;> simp [h]
  · intro hlt
    split_ifs with h
    · omega
    · rfl

/-- Closed instance of C9: `set_divider 0x7FF` succeeds and
`set_divider 0x800` is fatal. -/
theorem C9_witness :
    RamWave.new.set_divider 0x7ff = some { RamWave.new with divider := 0x7ff } ∧
    RamWave.new.set_divider 0x800 = none :=
  ⟨(C9_set_divider_spec RamWave.new 0x7ff).2 (by decide),
   (C9_set_divider_spec RamWave.new 0x800).1.mpr (by decide)⟩

/-- C4: `sample()` returns 0 whenever the channel is not running or not
enabled; otherwise it returns `samples[index]` transformed by the output
level, where Mute yields 0, Full the unchanged value, Halved the value
divided by 2 and Quartered the value divided by 4 (truncating integer
division); in particular a stored 12 at level Quartered yields 3. -/
theorem C4_sample_spec (s : RamWave) :
    ((s.running = false ∨ s.enabled = false) → s.sample = 0) ∧
    (s.running = true → s.enabled = true →
      s.sample = s.output_level.process (s.ram_sample s.index)) ∧
    (∀ v : Sample,
      OutputLevel.Mute.process v = 0 ∧
      OutputLevel.Full.process v = v ∧
      OutputLevel.Halved.process v = v / 2 ∧
      OutputLevel.Quartered.process v = v / 4) ∧
    OutputLevel.Quartered.process 12 = 3 := by
  refine ⟨?_, ?_, fun v => ⟨rfl, rfl, rfl, rfl⟩, rfl⟩
  · rintro (h | h) <;> simp [RamWave.sample, h]
  · intro h1 h2
    simp [RamWave.sample, h1, h2]

/-- Closed instance of C4: the running, enabled demo channel at level
Quartered with table value 12 produces 3; the power-on channel (not
running) produces 0. -/
theorem C4_witness :
    wDemo.sample = 3 ∧ RamWave.new.sample = 0 :=
  ⟨((C4_sample_spec wDemo).2.1 rfl rfl).trans (by decide),
   (C4_sample_spec RamWave.new).1 (Or.inl rfl)⟩

/-- C2: in a state with `running` true (and, in Counter mode, a nonzero
tick budget), a step that finds `counter = 0` reloads it to exactly
`2 * (0x800 - divider)` and advances `index` to `(index + 1) mod 32`
(so 31 wraps to 0), and in every case the step ends by decrementing the
(possibly reloaded) counter by one. -/
theorem C2_step_reload (s : RamWave) (hrun : s.running = true)
    (hrem : s.mode = Mode.Counter → s.remaining ≠ 0)
    (hlen : s.samples.length = 32) :
    (s.counter = 0 →
      s.step.counter = 2 * (0x800 - s.divider) - 1 ∧
      s.step.index = (s.index + 1) % 32) ∧
    s.step.counter = (if s.counter = 0 then 2 * (0x800 - s.divider) else s.counter) - 1 := by
  have h2 : ¬(s.mode = Mode.Counter ∧ s.remaining = 0) := by
    rintro ⟨hm, hr⟩
    exact hrem hm hr
  unfold RamWave.step
  rw [hrun]
  simp only [Bool.not_true, Bool.false_eq_true, if_false, if_neg h2]
  by_cases hm : s.mode = Mode.Counter <;>
    by_cases hc : s.counter = 0 <;>
      simp [hm, hc, hlen]

/-- Closed instance of C2: the demo channel with an expired counter,
divider 0x300 and index 31 reloads to 0xA00 - 1 = 0x9FF and wraps the
index to 0. -/
theorem C2_witness :
    w2Demo.step.counter = 0x9ff ∧ w2Demo.step.index = 0 := by
  have h := (C2_step_reload w2Demo rfl (by decide) (by decide)).1 rfl
  exact ⟨h.1.trans (by decide), h.2.trans (by decide)⟩

/-- In Counter mode with a nonzero budget, one step keeps the channel
running, keeps the mode, and decrements the budget by one. -/
theorem step_counter_tick (s : RamWave) (hrun : s.running = true)
    (hmode : s.mode = Mode.Counter) (hrem : s.remaining ≠ 0) :
    s.step.running = true ∧ s.step.mode = Mode.Counter ∧
    s.step.remaining = s.remaining - 1 := by
  have h2 : ¬(s.mode = Mode.Counter ∧ s.remaining = 0) := by
    rintro ⟨_, hr⟩
    exact hrem hr
  unfold RamWave.step
  rw [hrun]
  simp only [Bool.not_true, Bool.false_eq_true, if_false, if_neg h2]
  by_cases hc : s.counter = 0 <;> simp [hmode, hc]

/-- In Counter mode with an exhausted budget, the step only clears
`running` and returns: counter and index are untouched. -/
theorem step_counter_stop (s : RamWave) (hrun : s.running = true)
    (hmode : s.mode = Mode.Counter) (hrem : s.remaining = 0) :
    s.step = { s with running := false } := by
  unfold RamWave.step
  rw [hrun]
  simp [hmode, hrem]

/-- C3: in Counter mode with budget `N > 0`, each of the first `N` steps
keeps the channel running while counting the budget down, so the budget
after `k ≤ N` steps is `N - k`; the `(N+1)`-th step observes a zero
budget, clears `running`, and leaves counter and index untouched on that
call. -/
theorem C3_counter_budget (s : RamWave) (N : Nat) (hN : 0 < N)
    (hrun : s.running = true) (hmode : s.mode = Mode.Counter)
    (hrem : s.remaining = N) :
    (∀ k, k ≤ N →
      (RamWave.step^[k] s).running = true ∧
      (RamWave.step^[k] s).mode = Mode.Counter ∧
      (RamWave.step^[k] s).remaining = N - k) ∧
    (RamWave.step^[N] s).remaining = 0 ∧
    (RamWave.step^[N + 1] s).running = false ∧
    (RamWave.step^[N + 1] s).counter = (RamWave.step^[N] s).counter ∧
    (RamWave.step^[N + 1] s).index = (RamWave.step^[N] s).index := by
  have key : ∀ k, k ≤ N →
      (RamWave.step^[k] s).running = true ∧
      (RamWave.step^[k] s).mode = Mode.Counter ∧
      (RamWave.step^[k] s).remaining = N - k := by
    intro k
    induction k with
    | zero =>
      intro _
      simpa using ⟨hrun, hmode, hrem⟩
    | succ k ih =>
      intro hk
      obtain ⟨h1, h2, h3⟩ := ih (Nat.le_of_succ_le hk)
      have hne : (RamWave.step^[k] s).remaining ≠ 0 := by omega
      have ht := step_counter_tick _ h1 h2 hne
      rw [Function.iterate_succ_apply']
      exact ⟨ht.1, ht.2.1, by rw [ht.2.2, h3]; omega⟩
  obtain ⟨hN1, hN2, hN3⟩ := key N le_rfl
  have hz : (RamWave.step^[N] s).remaining = 0 := by omega
  have hstop := step_counter_stop _ hN1 hN2 hz
  refine ⟨key, hz, ?_, ?_, ?_⟩ <;>
    rw [Function.iterate_succ_apply', hstop]

/-- Closed instance of C3: budget 2 survives two steps, and the third
step stops the channel without touching counter or index. -/
theorem C3_witness :
    (RamWave.step^[1] s3Demo).running = true ∧
    (RamWave.step^[2] s3Demo).remaining = 0 ∧
    (RamWave.step^[3] s3Demo).running = false ∧
    (RamWave.step^[3] s3Demo).counter = (RamWave.step^[2] s3Demo).counter ∧
    (RamWave.step^[3] s3Demo).index = (RamWave.step^[2] s3Demo).index :=
  ⟨((C3_counter_budget s3Demo 2 (by decide) rfl rfl rfl).1 1 (by decide)).1,
   (C3_counter_budget s3Demo 2 (by decide) rfl rfl rfl).2.1,
   (C3_counter_budget s3Demo 2 (by decide) rfl rfl rfl).2.2.1,
   (C3_counter_budget s3Demo 2 (by decide) rfl rfl rfl).2.2.2.1,
   (C3_counter_budget s3Demo 2 (by decide) rfl rfl rfl).2.2.2.2⟩

/-- A step never changes the divider or the sample table, and either
keeps the index or advances it modulo the table length. -/
theorem step_fields (s : RamWave) :
    s.step.divider = s.divider ∧ s.step.samples = s.samples ∧
    (s.step.index = s.index ∨ s.step.index = (s.index + 1) % s.samples.length) := by
  simp only [RamWave.step]
  split_ifs <;> simp

/-- C10: every state reachable from `new` through the public mutators and
`step` keeps `divider ≤ 0x7FF`, `index ≤ 31` and a 32-entry sample table,
so the reload value `2 * (0x800 - divider)` is at least 2 and fits in
`u16`, the final counter decrement acts on a value of at least 1 when the
counter was 0 on entry to the reload test, and `index + 1` never
overflows `u8`. -/
theorem C10_reachable_no_overflow (s : RamWave) (h : Reachable s) :
    s.divider ≤ 0x7ff ∧ s.index ≤ 31 ∧ s.samples.length = 32 ∧
    2 ≤ 2 * (0x800 - s.divider) ∧ 2 * (0x800 - s.divider) < 2 ^ 16 ∧
    (s.counter = 0 → 1 ≤ 2 * (0x800 - s.divider)) ∧
    s.index + 1 < 2 ^ 8 := by
  have core : s.divider ≤ 0x7ff ∧ s.index ≤ 31 ∧ s.samples.length = 32 := by
    induction h with
    | new => exact ⟨by decide, by decide, by simp [RamWave.new]⟩
    | step hr ih =>
      rename_i s'
      obtain ⟨h1, h2, h3⟩ := ih
      obtain ⟨f1, f2, f3⟩ := step_fields s'
      refine ⟨f1 ▸ h1, ?_, by rw [f2]; exact h3⟩
      rcases f3 with f3 | f3
      · omega
      · rw [f3, h3]
        omega
    | start _ ih => simpa [RamWave.start] using ih
    | set_divider _ heq ih =>
      obtain ⟨h1, h2, h3⟩ := ih
      rw [RamWave.set_divider] at heq
      split_ifs at heq with hv
      injection heq with heq2
      subst heq2
      refine ⟨?_, by simpa using h2, by simpa using h3⟩
      simp
      omega
    | set_mode _ ih => simpa [RamWave.set_mode] using ih
    | set_length _ _ ih => simpa [RamWave.set_length] using ih
    | set_enabled _ ih => simpa [RamWave.set_enabled] using ih
    | set_output_level _ ih => simpa [RamWave.set_output_level] using ih
    | set_ram_sample _ _ ih =>
      simpa [RamWave.set_ram_sample, List.length_set] using ih
  obtain ⟨h1, h2, h3⟩ := core
  exact ⟨h1, h2, h3, by omega, by omega, fun _ => by omega, by omega⟩

/-- Closed instance of C10: the invariant holds at the power-on state. -/
theorem C10_witness :
    RamWave.new.divider ≤ 0x7ff ∧ RamWave.new.index ≤ 31 ∧
    RamWave.new.samples.length = 32 ∧
    2 ≤ 2 * (0x800 - RamWave.new.divider) ∧
    2 * (0x800 - RamWave.new.divider) < 2 ^ 16 ∧
    (RamWave.new.counter = 0 → 1 ≤ 2 * (0x800 - RamWave.new.divider)) ∧
    RamWave.new.index + 1 < 2 ^ 8 :=
  C10_reachable_no_overflow RamWave.new Reachable.new

end GbRs
